import Mathlib

/-!
Verification of the `clock` command-line time tracker (Go, `main.go`).

The embedding models the sqlite `records` table as a list of rows in
insertion order, and the functions `readRows`, `writeRow`, `clockInOut`,
`printTimeElapsed` and `parseCategory` as pure Lean functions over it.
Database-level failures of the insert statement are modelled by an
injected `Option String` parameter (`dbErr`); the Go runtime panic that
an out-of-bounds slice index would raise is modelled by an `Option`
result (`none` = panic).
-/

namespace Clock

/-- Embeds `clockAction` from the source: the string enum with values
`"in"` (`clockInAction`) and `"out"` (`clockOutAction`). -/
inductive ClockAction where
  | clockInAction
  | clockOutAction
deriving DecidableEq

/-- Embeds `Record` from the source: one row of the `records` table.
The `time` column is text formatted `YYYY-MM-DD HH:MM:SS`. -/
structure Record where
  id : Nat
  time : String
  action : ClockAction
  category : String
deriving DecidableEq

/-- State of the sqlite `records` table: the rows in insertion order. -/
structure Store where
  rows : List Record
deriving DecidableEq

/-- Largest `id` present in the table, `0` when the table is empty. -/
def Store.maxId (s : Store) : Nat :=
  s.rows.foldr (fun r acc => max r.id acc) 0

/-- Identifier sqlite assigns to the next inserted row for an
`integer not null primary key` column: one more than the current maximum. -/
def Store.nextId (s : Store) : Nat :=
  s.maxId + 1

/-- Embeds `readRows` from the source:
`select id, time, action, category from records order by id desc limit n`.
Rows are stored in insertion order, so descending-id order is the reverse
of the stored list; `limit n` keeps the first `n`. -/
def readRows (s : Store) (n : Nat) : List Record :=
  s.rows.reverse.take n

/-- Embeds `writeRow` from the source: the single insert statement
`insert into records (time, action, category) values (datetime('now'), ?, ?)`.
`timeNow` stands for `datetime('now')`; `dbErr` injects an underlying
database failure of the insert (in which case no row is written and the
wrapped error message is returned, as `fmt.Errorf` produces it).
Returns the table state after the call together with the optional error. -/
def writeRow (s : Store) (timeNow : String) (action : ClockAction)
    (category : String) (dbErr : Option String) : Store × Option String :=
  match dbErr with
  | some e => (s, some ("error inserting record: " ++ e))
  | none =>
    ({ rows := s.rows ++
        [{ id := s.nextId, time := timeNow, action := action,
           category := category }] }, none)

/-- Embeds `clockInOut` from the source, the clock state machine.
Mirrors the Go control flow: read the most recent row; if none, clock-in
writes and clock-out errors; otherwise reject same-action repeats, reject
a clock-out whose non-empty requested category differs from the open one,
substitute the open category for an empty clock-out category, and write.
The outer `Option` models the Go runtime panic that the index access
`states[0]` would raise were it reached with an empty slice (`none`);
`some (s', e)` is a normal return with resulting table `s'` and optional
error `e` (errors leave the table unchanged). -/
def clockInOut (s : Store) (timeNow : String) (action : ClockAction)
    (category : String) (dbErr : Option String) :
    Option (Store × Option String) :=
  let states := readRows s 1
  if states.length = 0 then
    match action with
    | ClockAction.clockInAction => some (writeRow s timeNow action category dbErr)
    | ClockAction.clockOutAction =>
      some (s, some "cannot clock out without clocking in first")
  else
    match states[0]? with
    | none => none
    | some state =>
      if action = ClockAction.clockInAction ∧
          state.action = ClockAction.clockInAction then
        some (s, some ("already clocked in (" ++ state.category ++ " @ " ++
          state.time ++ ")"))
      else if action = ClockAction.clockOutAction ∧
          state.action = ClockAction.clockOutAction then
        some (s, some ("already clocked out (" ++ state.category ++ " @ " ++
          state.time ++ ")"))
      else if action = ClockAction.clockOutAction ∧
          state.action = ClockAction.clockInAction then
        if category ≠ "" ∧ state.category ≠ category then
          some (s, some ("cannot clock out of a different category (" ++
            state.category ++ ")"))
        else
          let category := if category = "" then state.category else category
          some (writeRow s timeNow action category dbErr)
      else
        some (writeRow s timeNow action category dbErr)

/-- Embeds `parseCategory` from the source: zero positional arguments or
more than one yield the empty category, exactly one yields that argument. -/
def parseCategory (args : List String) : String :=
  match args with
  | [] => ""
  | [arg] => arg
  | _ => ""

/-- Decimal value of an ASCII digit character. -/
def digitVal (c : Char) : Nat :=
  c.toNat - 48

/-- Gregorian leap-year test, as Go's `time` package applies it. -/
def isLeapYear (y : Nat) : Bool :=
  (y % 4 == 0 && y % 100 != 0) || (y % 400 == 0)

/-- Number of days in a month, as Go's `time.Parse` validates the day. -/
def daysInMonth (y m : Nat) : Nat :=
  if m = 2 then (if isLeapYear y then 29 else 28)
  else if m = 4 ∨ m = 6 ∨ m = 9 ∨ m = 11 then 30
  else 31

/-- Days from 1970-01-01 to the given proleptic-Gregorian civil date
(standard days-from-civil computation with truncated integer division). -/
def daysFromCivil (y m d : Int) : Int :=
  let yy := y - (if m ≤ 2 then 1 else 0)
  let era := (if 0 ≤ yy then yy else yy - 399) / 400
  let yoe := yy - era * 400
  let mp := (m + 9) % 12
  let doy := (153 * mp + 2) / 5 + d - 1
  let doe := yoe * 365 + yoe / 4 - yoe / 100 + doy
  era * 146097 + doe - 719468

/-- Embeds `time.Parse("2006-01-02 15:04:05", str)` as used by the source:
accepts exactly the layout `YYYY-MM-DD HH:MM:SS` with in-range fields and
returns the timestamp as seconds since the Unix epoch; `none` on any
malformed or out-of-range input. -/
def parseClockTime (str : String) : Option Int :=
  match str.data with
  | [y1, y2, y3, y4, '-', mo1, mo2, '-', d1, d2, ' ',
     h1, h2, ':', mi1, mi2, ':', s1, s2] =>
    if ([y1, y2, y3, y4, mo1, mo2, d1, d2, h1, h2, mi1, mi2,
         s1, s2].all Char.isDigit) then
      let year := 1000 * digitVal y1 + 100 * digitVal y2 +
        10 * digitVal y3 + digitVal y4
      let month := 10 * digitVal mo1 + digitVal mo2
      let day := 10 * digitVal d1 + digitVal d2
      let hour := 10 * digitVal h1 + digitVal h2
      let minute := 10 * digitVal mi1 + digitVal mi2
      let second := 10 * digitVal s1 + digitVal s2
      if 1 ≤ month ∧ month ≤ 12 ∧ 1 ≤ day ∧ day ≤ daysInMonth year month ∧
          hour ≤ 23 ∧ minute ≤ 59 ∧ second ≤ 59 then
        some (daysFromCivil year month day * 86400 +
          (hour : Int) * 3600 + (minute : Int) * 60 + (second : Int))
      else none
    else none
  | _ => none

/-- Embeds `printTimeElapsed` from the source, reduced to the value it
computes: reads the two most recent rows, errors when fewer than two
exist, parses both timestamps (`records[1]` is the start, `records[0]`
the end) and returns the elapsed seconds `endTime - startTime`. -/
def printTimeElapsed (s : Store) : Except String Int :=
  let records := readRows s 2
  match records with
  | rend :: rstart :: _ =>
    match parseClockTime rstart.time with
    | none => Except.error "error parsing start time"
    | some startTime =>
      match parseClockTime rend.time with
      | none => Except.error "error parsing end time"
      | some endTime => Except.ok (endTime - startTime)
  | _ => Except.error "not enough records to calculate time elapsed"

/-- Containment of `pat` in `hay` as contiguous character runs; used to
state the "message contains / names" clauses of the spec. -/
def strContains (hay pat : String) : Prop :=
  pat.data <:+: hay.data

instance (hay pat : String) : Decidable (strContains hay pat) :=
  List.decidableInfix pat.data hay.data

/-- Well-formedness of the table: row identifiers strictly increase in
insertion order. Sqlite guarantees this because identifiers are assigned
monotonically and rows are never mutated or deleted. -/
def Store.WF (s : Store) : Prop :=
  s.rows.Pairwise (fun a b => a.id < b.id)

instance (s : Store) : Decidable s.WF :=
  inferInstanceAs (Decidable
    (List.Pairwise (fun (a b : Record) => a.id < b.id) s.rows))

/-! Supporting lemmas, shared by the claim theorems below. -/

theorem strContains_refl (pat : String) : strContains pat pat :=
  ⟨[], [], by simp⟩

theorem strContains_extend_left (z : String) {hay pat : String}
    (h : strContains hay pat) : strContains (z ++ hay) pat := by
  obtain ⟨u, v, huv⟩ := h
  exact ⟨z.data ++ u, v, by rw [String.data_append, ← huv]; simp⟩

theorem strContains_extend_right (z : String) {hay pat : String}
    (h : strContains hay pat) : strContains (hay ++ z) pat := by
  obtain ⟨u, v, huv⟩ := h
  exact ⟨u, v ++ z.data, by rw [String.data_append, ← huv]; simp⟩

theorem id_le_foldr_max {l : List Record} {r : Record} (h : r ∈ l) :
    r.id ≤ l.foldr (fun x acc => max x.id acc) 0 := by
  induction l with
  | nil => cases h
  | cons a t ih =>
    rcases List.mem_cons.mp h with h | h
    · subst h; exact le_max_left _ _
    · exact le_trans (ih h) (le_max_right _ _)

theorem writeRow_WF {s : Store} (hw : s.WF) (timeNow : String)
    (action : ClockAction) (category : String) (dbErr : Option String) :
    (writeRow s timeNow action category dbErr).1.WF := by
  cases dbErr with
  | some e => exact hw
  | none =>
    unfold writeRow Store.WF
    simp only []
    rw [List.pairwise_append]
    refine ⟨hw, List.pairwise_singleton _ _, ?_⟩
    intro a ha b hb
    rcases List.mem_singleton.mp hb with rfl
    exact Nat.lt_succ_of_le (id_le_foldr_max ha)

theorem length_readRows (s : Store) (n : Nat) :
    (readRows s n).length = min n s.rows.length := by
  simp [readRows]

theorem readRows_pairwise {s : Store} (hw : s.WF) (n : Nat) :
    ((readRows s n).map Record.id).Pairwise (fun a b => b < a) := by
  unfold readRows
  have h1 : s.rows.reverse.Pairwise (fun a b => b.id < a.id) :=
    List.pairwise_reverse.mpr hw
  have h2 := List.Pairwise.sublist (List.take_sublist n _) h1
  exact List.pairwise_map.mpr h2

/-- Master case analysis of a `clockInOut` run: every run either returns
exactly what `writeRow` returns for some category (the legal paths), or
returns an invalid-transition error with the table unchanged, reached
before any write, hence independent of the injected database error. -/
theorem clockInOut_run (s : Store) (timeNow : String) (action : ClockAction)
    (category : String) (dbErr : Option String) :
    (∃ cat, clockInOut s timeNow action category dbErr =
      some (writeRow s timeNow action cat dbErr)) ∨
    (∃ msg, clockInOut s timeNow action category dbErr = some (s, some msg) ∧
      clockInOut s timeNow action category none = some (s, some msg)) := by
  cases hr : readRows s 1 with
  | nil =>
    cases action with
    | clockInAction => exact Or.inl ⟨category, by simp [clockInOut, hr]⟩
    | clockOutAction =>
      exact Or.inr ⟨"cannot clock out without clocking in first",
        by simp [clockInOut, hr], by simp [clockInOut, hr]⟩
  | cons st rest =>
    by_cases h1 : action = ClockAction.clockInAction ∧
        st.action = ClockAction.clockInAction
    · exact Or.inr ⟨"already clocked in (" ++ st.category ++ " @ " ++
        st.time ++ ")", by simp [clockInOut, hr, h1], by simp [clockInOut, hr, h1]⟩
    · by_cases h2 : action = ClockAction.clockOutAction ∧
          st.action = ClockAction.clockOutAction
      · exact Or.inr ⟨"already clocked out (" ++ st.category ++ " @ " ++
          st.time ++ ")", by simp [clockInOut, hr, h1, h2],
          by simp [clockInOut, hr, h1, h2]⟩
      · by_cases h3 : action = ClockAction.clockOutAction ∧
            st.action = ClockAction.clockInAction
        · by_cases h4 : category ≠ "" ∧ st.category ≠ category
          · exact Or.inr ⟨"cannot clock out of a different category (" ++
              st.category ++ ")", by simp [clockInOut, hr, h1, h2, h3, h4],
              by simp [clockInOut, hr, h1, h2, h3, h4]⟩
          · exact Or.inl ⟨if category = "" then st.category else category,
              by simp [clockInOut, hr, h1, h2, h3, h4]⟩
        · exact Or.inl ⟨category, by simp [clockInOut, hr, h1, h2, h3]⟩

/-! Claim theorems. -/

/-- C1 counterexample: clocking in on an empty store with an empty
requested category appends an event whose category is the empty string,
not the literal `"default"`; the claimed defaulting does not happen. -/
theorem clockIn_empty_category_not_default_cex :
    clockInOut ⟨[]⟩ "2024-01-01 00:00:00" ClockAction.clockInAction "" none =
      some (⟨[⟨1, "2024-01-01 00:00:00", ClockAction.clockInAction, ""⟩]⟩,
        none) ∧
    ("" : String) ≠ "default" :=
  ⟨rfl, by decide⟩

/-- C1 amended: for every clock-in performed by `clockInOut` with an empty
requested category (no prior event, or most recent event a clock-out),
the appended event's category is the requested category verbatim — the
empty string; no substitution of `"default"` occurs. -/
theorem clockIn_empty_category_stored_empty (s : Store) (timeNow : String)
    (h : readRows s 1 = [] ∨ ∃ st rest, readRows s 1 = st :: rest ∧
      st.action = ClockAction.clockOutAction) :
    clockInOut s timeNow ClockAction.clockInAction "" none =
      some (⟨s.rows ++
        [⟨s.nextId, timeNow, ClockAction.clockInAction, ""⟩]⟩, none) := by
  rcases h with h | ⟨st, rest, h, ha⟩
  · simp [clockInOut, h, writeRow]
  · simp [clockInOut, h, ha, writeRow]

/-- C1 amended witness: concrete empty store. -/
theorem clockIn_empty_category_stored_empty_witness :
    clockInOut ⟨[]⟩ "2024-01-01 00:00:00" ClockAction.clockInAction "" none =
      some (⟨(⟨[]⟩ : Store).rows ++ [⟨Store.nextId ⟨[]⟩,
        "2024-01-01 00:00:00", ClockAction.clockInAction, ""⟩]⟩, none) :=
  clockIn_empty_category_stored_empty ⟨[]⟩ "2024-01-01 00:00:00"
    (Or.inl rfl)

/-- C2: a clock-out with an empty requested category, when the most recent
event is a clock-in with category `st.category`, succeeds and appends a
clock-out event carrying exactly that inherited category. -/
theorem clockOut_inherits_open_category (s : Store) (timeNow : String)
    (st : Record) (h : readRows s 1 = [st])
    (ha : st.action = ClockAction.clockInAction) :
    clockInOut s timeNow ClockAction.clockOutAction "" none =
      some (⟨s.rows ++ [⟨s.nextId, timeNow, ClockAction.clockOutAction,
        st.category⟩]⟩, none) := by
  simp [clockInOut, h, ha, writeRow]

/-- C2 witness: clock out after clocking in with category `"work"`. -/
theorem clockOut_inherits_open_category_witness :
    clockInOut ⟨[⟨1, "t1", ClockAction.clockInAction, "work"⟩]⟩ "t2"
      ClockAction.clockOutAction "" none =
      some (⟨(⟨[⟨1, "t1", ClockAction.clockInAction, "work"⟩]⟩ :
          Store).rows ++
        [⟨Store.nextId ⟨[⟨1, "t1", ClockAction.clockInAction, "work"⟩]⟩,
          "t2", ClockAction.clockOutAction,
          Record.category ⟨1, "t1", ClockAction.clockInAction,
            "work"⟩⟩]⟩, none) :=
  clockOut_inherits_open_category
    ⟨[⟨1, "t1", ClockAction.clockInAction, "work"⟩]⟩ "t2"
    ⟨1, "t1", ClockAction.clockInAction, "work"⟩ rfl rfl

/-- C4: for every category argument and every injected database outcome,
clocking out on a store with no events fails with exactly the message
`cannot clock out without clocking in first` and leaves the store
unchanged. -/
theorem clockOut_empty_store_fails (s : Store) (timeNow : String)
    (category : String) (dbErr : Option String) (h : s.rows = []) :
    clockInOut s timeNow ClockAction.clockOutAction category dbErr =
      some (s, some "cannot clock out without clocking in first") := by
  simp [clockInOut, readRows, h]

/-- C4 witness: concrete empty store. -/
theorem clockOut_empty_store_fails_witness :
    clockInOut ⟨[]⟩ "t" ClockAction.clockOutAction "work" none =
      some (⟨[]⟩, some "cannot clock out without clocking in first") :=
  clockOut_empty_store_fails ⟨[]⟩ "t" "work" none rfl

/-- C3: a clock-out whose non-empty requested category differs from the
category of the open clock-in fails with a message that contains
`cannot clock out of a different category` and names the open category,
and leaves the store unchanged. -/
theorem clockOut_category_mismatch_fails (s : Store) (timeNow : String)
    (st : Record) (c : String) (dbErr : Option String)
    (h : readRows s 1 = [st]) (ha : st.action = ClockAction.clockInAction)
    (hc : c ≠ "") (hne : st.category ≠ c) :
    clockInOut s timeNow ClockAction.clockOutAction c dbErr =
      some (s, some ("cannot clock out of a different category (" ++
        st.category ++ ")")) ∧
    strContains ("cannot clock out of a different category (" ++
      st.category ++ ")") "cannot clock out of a different category" ∧
    strContains ("cannot clock out of a different category (" ++
      st.category ++ ")") st.category := by
  refine ⟨by simp [clockInOut, h, ha, hc, hne], ?_, ?_⟩
  · exact strContains_extend_right ")" (strContains_extend_right st.category
      (by decide))
  · exact strContains_extend_right ")"
      (strContains_extend_left "cannot clock out of a different category ("
        (strContains_refl st.category))

/-- C3 witness: clock out of `"personal"` while `"work"` is open. -/
theorem clockOut_category_mismatch_fails_witness :
    clockInOut ⟨[⟨1, "t1", ClockAction.clockInAction, "work"⟩]⟩ "t2"
      ClockAction.clockOutAction "personal" none =
      some (⟨[⟨1, "t1", ClockAction.clockInAction, "work"⟩]⟩,
        some ("cannot clock out of a different category (" ++
          "work" ++ ")")) ∧
    strContains ("cannot clock out of a different category (" ++
      "work" ++ ")") "cannot clock out of a different category" ∧
    strContains ("cannot clock out of a different category (" ++
      "work" ++ ")") "work" :=
  clockOut_category_mismatch_fails
    ⟨[⟨1, "t1", ClockAction.clockInAction, "work"⟩]⟩ "t2"
    ⟨1, "t1", ClockAction.clockInAction, "work"⟩ "personal" none
    rfl rfl (by decide) (by decide)

/-- C5: repeating the action of the most recent event fails — with a
message containing `already clocked in` when both are clock-ins and
`already clocked out` when both are clock-outs — the message contains the
prior event's category and timestamp, and the store is unchanged. -/
theorem clockInOut_repeat_action_fails (s : Store) (timeNow : String)
    (action : ClockAction) (category : String) (dbErr : Option String)
    (st : Record) (h : readRows s 1 = [st]) (ha : st.action = action) :
    ∃ msg, clockInOut s timeNow action category dbErr =
      some (s, some msg) ∧
    (action = ClockAction.clockInAction →
      strContains msg "already clocked in") ∧
    (action = ClockAction.clockOutAction →
      strContains msg "already clocked out") ∧
    strContains msg st.category ∧ strContains msg st.time := by
  cases action with
  | clockInAction =>
    refine ⟨"already clocked in (" ++ st.category ++ " @ " ++ st.time ++ ")",
      by simp [clockInOut, h, ha], fun _ => ?_, fun hx => ClockAction.noConfusion hx, ?_, ?_⟩
    · exact strContains_extend_right ")" (strContains_extend_right st.time
        (strContains_extend_right " @ " (strContains_extend_right st.category
          (by decide))))
    · exact strContains_extend_right ")" (strContains_extend_right st.time
        (strContains_extend_right " @ "
          (strContains_extend_left "already clocked in ("
            (strContains_refl st.category))))
    · exact strContains_extend_right ")"
        (strContains_extend_left ("already clocked in (" ++ st.category ++
          " @ ") (strContains_refl st.time))
  | clockOutAction =>
    refine ⟨"already clocked out (" ++ st.category ++ " @ " ++ st.time ++ ")",
      by simp [clockInOut, h, ha], fun hx => ClockAction.noConfusion hx, fun _ => ?_, ?_, ?_⟩
    · exact strContains_extend_right ")" (strContains_extend_right st.time
        (strContains_extend_right " @ " (strContains_extend_right st.category
          (by decide))))
    · exact strContains_extend_right ")" (strContains_extend_right st.time
        (strContains_extend_right " @ "
          (strContains_extend_left "already clocked out ("
            (strContains_refl st.category))))
    · exact strContains_extend_right ")"
        (strContains_extend_left ("already clocked out (" ++ st.category ++
          " @ ") (strContains_refl st.time))

/-- C5 witness: a second clock-in while `"work"` is open. -/
theorem clockInOut_repeat_action_fails_witness :
    ∃ msg, clockInOut ⟨[⟨1, "t1", ClockAction.clockInAction, "work"⟩]⟩ "t2"
      ClockAction.clockInAction "x" none =
      some (⟨[⟨1, "t1", ClockAction.clockInAction, "work"⟩]⟩, some msg) ∧
    (ClockAction.clockInAction = ClockAction.clockInAction →
      strContains msg "already clocked in") ∧
    (ClockAction.clockInAction = ClockAction.clockOutAction →
      strContains msg "already clocked out") ∧
    strContains msg "work" ∧ strContains msg "t1" :=
  clockInOut_repeat_action_fails
    ⟨[⟨1, "t1", ClockAction.clockInAction, "work"⟩]⟩ "t2"
    ClockAction.clockInAction "x" none
    ⟨1, "t1", ClockAction.clockInAction, "work"⟩ rfl rfl

/-- C6: on a well-formed store, `readRows n` returns exactly
`min n total` rows, their identifiers strictly descending, and returns the
empty list (rather than an error) on an empty store. -/
theorem readRows_spec (s : Store) (n : Nat) (hw : s.WF) :
    (readRows s n).length = min n s.rows.length ∧
    ((readRows s n).map Record.id).Pairwise (fun a b => b < a) ∧
    (s.rows = [] → readRows s n = []) := by
  refine ⟨length_readRows s n, readRows_pairwise hw n, ?_⟩
  intro h
  simp [readRows, h]

/-- C6 witness: three rows, `n = 2`. -/
theorem readRows_spec_witness :
    (readRows ⟨[⟨1, "a", ClockAction.clockInAction, "x"⟩,
      ⟨2, "b", ClockAction.clockOutAction, "x"⟩,
      ⟨3, "c", ClockAction.clockInAction, "y"⟩]⟩ 2).length =
      min 2 (Store.rows ⟨[⟨1, "a", ClockAction.clockInAction, "x"⟩,
        ⟨2, "b", ClockAction.clockOutAction, "x"⟩,
        ⟨3, "c", ClockAction.clockInAction, "y"⟩]⟩).length ∧
    ((readRows ⟨[⟨1, "a", ClockAction.clockInAction, "x"⟩,
      ⟨2, "b", ClockAction.clockOutAction, "x"⟩,
      ⟨3, "c", ClockAction.clockInAction, "y"⟩]⟩ 2).map
        Record.id).Pairwise (fun a b => b < a) ∧
    (Store.rows ⟨[⟨1, "a", ClockAction.clockInAction, "x"⟩,
      ⟨2, "b", ClockAction.clockOutAction, "x"⟩,
      ⟨3, "c", ClockAction.clockInAction, "y"⟩]⟩ = [] →
      readRows ⟨[⟨1, "a", ClockAction.clockInAction, "x"⟩,
        ⟨2, "b", ClockAction.clockOutAction, "x"⟩,
        ⟨3, "c", ClockAction.clockInAction, "y"⟩]⟩ 2 = []) :=
  readRows_spec ⟨[⟨1, "a", ClockAction.clockInAction, "x"⟩,
    ⟨2, "b", ClockAction.clockOutAction, "x"⟩,
    ⟨3, "c", ClockAction.clockInAction, "y"⟩]⟩ 2 (by decide)

/-- C7: every `clockInOut` run appends at most one row — exactly one on
success (`e = none`), none on any error — and an injected append failure
either surfaces as `writeRow`'s result verbatim, or the run failed before
the write with the same outcome as an injection-free run. -/
theorem clockInOut_single_append (s : Store) (timeNow : String)
    (action : ClockAction) (category : String) (dbErr : Option String)
    (s' : Store) (e : Option String)
    (h : clockInOut s timeNow action category dbErr = some (s', e)) :
    (e = none → s'.rows.length = s.rows.length + 1) ∧
    (e ≠ none → s' = s) ∧
    (∀ d, dbErr = some d →
      (∃ cat, writeRow s timeNow action cat (some d) = (s', e)) ∨
      clockInOut s timeNow action category none = some (s', e)) := by
  rcases clockInOut_run s timeNow action category dbErr with
    ⟨cat, hw⟩ | ⟨msg, hm, hm0⟩
  · rw [hw] at h
    cases dbErr with
    | none =>
      simp only [writeRow] at h
      injection h with h1
      injection h1 with h1 h2
      subst h1
      subst h2
      exact ⟨fun _ => by simp, fun hne => absurd rfl hne,
        fun d hd => Option.noConfusion hd⟩
    | some d0 =>
      simp only [writeRow] at h
      injection h with h1
      injection h1 with h1 h2
      subst h1
      subst h2
      refine ⟨fun he => Option.noConfusion he, fun _ => rfl, fun d hd => ?_⟩
      injection hd with hdd
      subst hdd
      exact Or.inl ⟨cat, by simp [writeRow]⟩
  · rw [hm] at h
    injection h with h1
    injection h1 with h1 h2
    subst h1
    subst h2
    refine ⟨fun he => Option.noConfusion he, fun _ => rfl, fun d hd => Or.inr hm0⟩

/-- C7 witness: a successful clock-in on the empty store appends exactly
one row. -/
theorem clockInOut_single_append_witness :
    ((none : Option String) = none →
      (Store.rows ⟨[⟨1, "t", ClockAction.clockInAction, "x"⟩]⟩).length =
        (Store.rows ⟨[]⟩).length + 1) ∧
    ((none : Option String) ≠ none →
      (⟨[⟨1, "t", ClockAction.clockInAction, "x"⟩]⟩ : Store) = ⟨[]⟩) ∧
    (∀ d, (none : Option String) = some d →
      (∃ cat, writeRow ⟨[]⟩ "t" ClockAction.clockInAction cat (some d) =
        (⟨[⟨1, "t", ClockAction.clockInAction, "x"⟩]⟩, none)) ∨
      clockInOut ⟨[]⟩ "t" ClockAction.clockInAction "x" none =
        some (⟨[⟨1, "t", ClockAction.clockInAction, "x"⟩]⟩, none)) :=
  clockInOut_single_append ⟨[]⟩ "t" ClockAction.clockInAction "x" none
    ⟨[⟨1, "t", ClockAction.clockInAction, "x"⟩]⟩ none rfl

/-- C8: `printTimeElapsed` fails with the insufficient-history error when
the store holds fewer than two rows; with at least two rows whose
timestamps parse, it returns `tend - tstart` where `tstart` is the older
(`records[1]`) and `tend` the newer (`records[0]`) of the two most recent
rows (older meaning smaller id, on a well-formed store), and two rows at
least one second apart yield an elapsed time of at least one second. -/
theorem printTimeElapsed_spec (s : Store) :
    (s.rows.length < 2 →
      printTimeElapsed s =
        Except.error "not enough records to calculate time elapsed") ∧
    (∀ rend rstart rest tstart tend,
      readRows s 2 = rend :: rstart :: rest →
      parseClockTime rstart.time = some tstart →
      parseClockTime rend.time = some tend →
      printTimeElapsed s = Except.ok (tend - tstart) ∧
      (tstart + 1 ≤ tend → 1 ≤ tend - tstart) ∧
      (s.WF → rstart.id < rend.id)) := by
  constructor
  · intro hlen
    cases hr : readRows s 2 with
    | nil => simp [printTimeElapsed, hr]
    | cons a l =>
      cases l with
      | nil => simp [printTimeElapsed, hr]
      | cons b l2 =>
        exfalso
        have hL := length_readRows s 2
        rw [hr] at hL
        simp only [List.length_cons] at hL
        omega
  · intro rend rstart rest tstart tend hr hps hpe
    refine ⟨by simp [printTimeElapsed, hr, hps, hpe], by omega, ?_⟩
    intro hw
    have hp := readRows_pairwise hw 2
    rw [hr] at hp
    simp only [List.map_cons, List.pairwise_cons] at hp
    exact hp.1 rstart.id (List.mem_cons_self _ _)

/-- C8 witness: two rows five seconds apart. -/
theorem printTimeElapsed_spec_witness :
    printTimeElapsed ⟨[⟨1, "2024-01-01 00:00:00", ClockAction.clockInAction,
      "w"⟩, ⟨2, "2024-01-01 00:00:05", ClockAction.clockOutAction, "w"⟩]⟩ =
      Except.ok (1704067205 - 1704067200) ∧
    ((1704067200 : Int) + 1 ≤ 1704067205 →
      (1 : Int) ≤ 1704067205 - 1704067200) ∧
    (Store.WF ⟨[⟨1, "2024-01-01 00:00:00", ClockAction.clockInAction, "w"⟩,
      ⟨2, "2024-01-01 00:00:05", ClockAction.clockOutAction, "w"⟩]⟩ →
      (1 : Nat) < 2) :=
  (printTimeElapsed_spec ⟨[⟨1, "2024-01-01 00:00:00",
      ClockAction.clockInAction, "w"⟩,
    ⟨2, "2024-01-01 00:00:05", ClockAction.clockOutAction, "w"⟩]⟩).2
    ⟨2, "2024-01-01 00:00:05", ClockAction.clockOutAction, "w"⟩
    ⟨1, "2024-01-01 00:00:00", ClockAction.clockInAction, "w"⟩
    [] 1704067200 1704067205 rfl (by decide) (by decide)

/-- C9: `parseCategory` yields the empty category on zero arguments, the
sole argument on exactly one, and the empty category again on two or
more arguments (never an error). -/
theorem parseCategory_spec :
    parseCategory [] = "" ∧ (∀ a, parseCategory [a] = a) ∧
    (∀ a b rest, parseCategory (a :: b :: rest) = "") :=
  ⟨rfl, fun _ => rfl, fun _ _ _ => rfl⟩

/-- C10: `clockInOut` never reaches the out-of-bounds access modelled by
the `none` result: every run returns normally, because both empty-history
branches return before `states[0]` is evaluated. -/
theorem clockInOut_index_safe (s : Store) (timeNow : String)
    (action : ClockAction) (category : String) (dbErr : Option String) :
    (clockInOut s timeNow action category dbErr).isSome = true := by
  rcases clockInOut_run s timeNow action category dbErr with
    ⟨cat, h⟩ | ⟨msg, h, _⟩ <;> simp [h]

end Clock
